import Mathlib

/-!
# Portal de Consultas (`Proyecto/src/App.jsx`)

A shallow embedding of the client-side logic of `App.jsx`: the query catalog
`CONSULTAS`, the event handlers of the `App` component (as functions on an
explicit record of the component's `useState` cells), the dispatcher
`ejecutarConsulta` (as a function of the response that `fetch` produced), and
the pagination arithmetic.

JavaScript strings are modelled by `String`, the `page` counter by `Int`
(so that `p - 1` below 1 is a real subtraction), array lengths by `Nat`.
-/

namespace Portal

/-! ## Catalog -/

/-- One entry of a query's `campos` array. -/
structure Campo where
  name : String
  label : String
  placeholder : String
  deriving DecidableEq, Repr

/-- One entry of `CONSULTAS`. -/
structure Consulta where
  id : Nat
  titulo : String
  descripcion : String
  campos : List Campo
  deriving DecidableEq, Repr

/-- The constant `CONSULTAS` of `App.jsx`, entry by entry. -/
def CONSULTAS : List Consulta :=
  [ { id := 1
      titulo := "Prerrequisitos de un curso"
      descripcion := "Encontrar los prerrequisitos de un curso. El curso se introduce en la pregunta. Si se introduce un curso inexistente la aplicación debe enviar un mensaje de que ese curso no existe."
      campos := [ { name := "courseId", label := "ID del curso", placeholder := "Ejemplo: CS-101" } ] },
    { id := 2
      titulo := "Historial académico de un estudiante"
      descripcion := "Obtener el historial académico completo (transcript) de un estudiante. El ID del estudiante se especifica en la pregunta."
      campos := [ { name := "studentId", label := "ID del estudiante", placeholder := "Ejemplo: 12345" } ] },
    { id := 3
      titulo := "Detalles de una sección"
      descripcion := "Encontrar los detalles (horario y aula) de una sección específica. Se pide el ID de la sección."
      campos := [ { name := "sectionId", label := "ID de la sección", placeholder := "Ejemplo: 1" } ] },
    { id := 4
      titulo := "Secciones de un edificio"
      descripcion := "Encontrar todas las secciones que se imparten en el edificio X."
      campos := [ { name := "building", label := "Nombre del edificio", placeholder := "Ejemplo: Watson" } ] },
    { id := 5
      titulo := "Estudiante y su asesor"
      descripcion := "Encontrar el nombre de un estudiante X y el nombre de su asesor."
      campos := [ { name := "studentName", label := "Nombre del estudiante", placeholder := "Ejemplo: Zhang" } ] },
    { id := 6
      titulo := "Estudiantes con \x27A\x27 en un curso"
      descripcion := "Encontrar a todos los estudiantes que obtuvieron una \x27A\x27 en el curso X."
      campos := [ { name := "courseName", label := "Nombre o ID del curso", placeholder := "Ejemplo: Database Systems" } ] },
    { id := 7
      titulo := "Estudiantes asesorados por un profesor"
      descripcion := "Encontrar los nombres de todos los estudiantes asesorados por el profesor de nombre X."
      campos := [ { name := "professorName", label := "Nombre del profesor", placeholder := "Ejemplo: Smith" } ] },
    { id := 8
      titulo := "Cursos impartidos por un profesor"
      descripcion := "Encontrar todos los cursos (título, horario y aula) que imparte el profesor de nombre X."
      campos := [ { name := "professorName", label := "Nombre del profesor", placeholder := "Ejemplo: Brown" } ] },
    { id := 9
      titulo := "Salario promedio por departamento"
      descripcion := "Calcular el salario promedio por departamento."
      campos := [] },
    { id := 10
      titulo := "Estudiantes del depto. X con > 90 créditos"
      descripcion := "Encontrar todos los estudiantes del departamento X con más de 90 créditos."
      campos := [ { name := "departmentName", label := "Nombre del departamento", placeholder := "Ejemplo: Comp. Sci." } ] } ]

/-- The lookup `CONSULTAS.find((c) => c.id === selectedId)`; `selectedId` is
`null` (here `none`) or a number. -/
def selectedConsulta (selectedId : Option Nat) : Option Consulta :=
  match selectedId with
  | none => none
  | some i => CONSULTAS.find? (fun c => c.id == i)

/-! ## Form values and validation -/

/-- The `formValues` object: own string-keyed properties with string values
(every write is `handleInputChange(campo.name, e.target.value)`), in insertion
order. -/
abbrev FormValues := List (String × String)

/-- Property read `formValues[name]`: the value of the own property `name`, or
`undefined` (here `none`). Names inherited from `Object.prototype` are not
modelled; no field name of `CONSULTAS` is one of them. -/
def FormValues.get (fv : FormValues) (name : String) : Option String :=
  match fv with
  | [] => none
  | (k, v) :: rest => if k = name then some v else FormValues.get rest name

/-- The object `{ ...prev, [name]: value }`: an existing own property keeps its
position and takes the new value, a new one is appended. -/
def FormValues.set (fv : FormValues) (name value : String) : FormValues :=
  match fv with
  | [] => [(name, value)]
  | (k, v) :: rest =>
    if k = name then (k, value) :: rest else (k, v) :: FormValues.set rest name value

/-- The code points that `String.prototype.trim` strips: ECMAScript WhiteSpace
(TAB, VT, FF, ZWNBSP and the Unicode space separators) and LineTerminator
(LF, CR, LS, PS). -/
def isJsWhitespace (c : Char) : Bool :=
  let n := c.toNat
  n == 0x09 || n == 0x0A || n == 0x0B || n == 0x0C || n == 0x0D || n == 0x20 ||
  n == 0xA0 || n == 0x1680 || (0x2000 ≤ n && n ≤ 0x200A) || n == 0x2028 ||
  n == 0x2029 || n == 0x202F || n == 0x205F || n == 0x3000 || n == 0xFEFF

/-- The method `String.prototype.trim`: leading and trailing white space removed. -/
def jsTrim (s : String) : String :=
  String.mk (((s.data.dropWhile isJsWhitespace).reverse.dropWhile isJsWhitespace).reverse)

/-- The test `!valor || valor.trim() === ""` of `handleSubmit`, for `valor`
either `undefined` or a string (the only falsy string is the empty one). -/
def faltaValor (valor : Option String) : Bool :=
  match valor with
  | none => true
  | some v => v == "" || jsTrim v == ""

/-- The template literal of the validation error of `handleSubmit`. -/
def mensajeFalta (label : String) : String :=
  "Falta llenar el campo \"" ++ label ++ "\"."

/-- The loop `for (const campo of selectedConsulta.campos)` of `handleSubmit`:
`some msg` when the loop leaves through `setError(msg); return;`, `none` when it
runs to its end. -/
def validar (campos : List Campo) (fv : FormValues) : Option String :=
  match campos with
  | [] => none
  | campo :: rest =>
    if faltaValor (fv.get campo.name) then some (mensajeFalta campo.label)
    else validar rest fv

/-! ## Values parsed from a response body -/

/-- A JavaScript number as `response.json()` can produce it: a finite value
`± mantissa * 2 ^ exponent` (so both zeros are `mantissa = 0`) or an infinity
(a literal such as `1e999`). JSON has no NaN. -/
inductive JSNumber where
  | finite (negative : Bool) (mantissa : Nat) (exponent : Int)
  | infinity (negative : Bool)

/-- A value produced by `response.json()`. An object is its list of own
properties. -/
inductive JSVal where
  | null
  | bool (b : Bool)
  | num (n : JSNumber)
  | str (s : String)
  | arr (items : List JSVal)
  | obj (props : List (String × JSVal))

/-- ToBoolean, as applied by `!x`: `null`, `false`, both zeros and the empty
string are falsy, every array and object is truthy. -/
def JSVal.truthy : JSVal → Bool
  | .null => false
  | .bool b => b
  | .num (.finite _ m _) => m != 0
  | .num (.infinity _) => true
  | .str s => s != ""
  | .arr _ => true
  | .obj _ => true

/-- ToBoolean of a property read, where `undefined` (here `none`) is falsy. -/
def truthyProp (v : Option JSVal) : Bool :=
  match v with
  | none => false
  | some x => x.truthy

/-- Own-property lookup in the property list of an object. -/
def lookupProp (props : List (String × JSVal)) (key : String) : Option JSVal :=
  match props with
  | [] => none
  | (k, v) :: rest => if k = key then some v else lookupProp rest key

/-- The property reads `data.columns` and `data.rows` (`key` is one of those
two names, which no built-in prototype defines): on `null` the read throws a
TypeError (outer `none`); on an object it is the own property or `undefined`;
on a boolean, number, string or array it is `undefined`. -/
def readProp (data : JSVal) (key : String) : Option (Option JSVal) :=
  match data with
  | .null => none
  | .obj props => some (lookupProp props key)
  | _ => some none

/-- Whether the parsed body is an object that has an own property `key`. -/
def hasField (data : JSVal) (key : String) : Bool :=
  match data with
  | .obj props => (lookupProp props key).isSome
  | _ => false

/-! ## The dispatcher `ejecutarConsulta` -/

/-- A thrown `Error` object, by its `message`. -/
structure JSError where
  message : String
  deriving DecidableEq, Repr

/-- What the code reads of the `Response` that `fetch` resolved to.
`text` is the outcome of `response.text()` (`none`: the promise rejects) and
`json` the outcome of `response.json()` (the rejection's message, or the parsed
value). -/
structure Response where
  status : Nat
  statusText : String
  text : Option String
  json : Except String JSVal

/-- The getter `response.ok` of the Fetch API: the status is in 200..299. -/
def Response.ok (r : Response) : Bool :=
  200 ≤ r.status && r.status ≤ 299

/-- The outcome of `await fetch(url, ...)`: the promise rejects (network
failure) with an error of the given message, or resolves to a response. -/
inductive FetchOutcome where
  | rejected (message : String)
  | responded (r : Response)

/-- The constant `BASE_URL`. -/
def BASE_URL : String := "http://localhost:8000"

/-- The request that `ejecutarConsulta(id, params)` sends: `POST` to
`url` with the JSON text of `params` as body. -/
structure Request where
  url : String
  params : FormValues
  deriving DecidableEq, Repr

/-- The `url` and `body` computed at the top of `ejecutarConsulta`. -/
def buildRequest (id : Nat) (params : FormValues) : Request :=
  { url := BASE_URL ++ "/api/consulta/" ++ toString id, params := params }

/-- The template literal of the HTTP error thrown by `ejecutarConsulta`. -/
def mensajeHttp (status : Nat) (statusText text : String) : String :=
  "Error HTTP " ++ toString status ++ " " ++ statusText ++ " " ++ text

/-- The message of the schema error thrown by `ejecutarConsulta`. -/
def mensajeEsquema : String :=
  "La respuesta de la API no tiene \x27columns\x27 o \x27rows\x27."

/-- The message of the TypeError that reading `data.columns` on `null` throws
(the engine chooses the text; this is the one of V8). -/
def mensajeNull : String :=
  "Cannot read properties of null (reading \x27columns\x27)"

/-- The body of `ejecutarConsulta` after `await fetch(...)`, as a function of
what `fetch` produced: `.ok data` is `return data`, `.error e` a thrown `e`. -/
def ejecutarConsulta (_id : Nat) (_params : FormValues) (net : FetchOutcome) :
    Except JSError JSVal :=
  match net with
  | .rejected m => .error { message := m }
  | .responded response =>
    if !response.ok then
      -- `await response.text().catch(() => "")`
      let text := match response.text with
        | some t => t
        | none => ""
      .error { message := mensajeHttp response.status response.statusText text }
    else
      match response.json with
      | .error m => .error { message := m }
      | .ok data =>
        match readProp data "columns" with
        | none => .error { message := mensajeNull }
        | some columns =>
          if !truthyProp columns then .error { message := mensajeEsquema }
          else
            match readProp data "rows" with
            | none => .error { message := mensajeNull }
            | some rows =>
              if !truthyProp rows then .error { message := mensajeEsquema }
              else .ok data

/-! ## The component state and its handlers -/

/-- The `useState` cells of `App` that the query console reads
(`loginValues` is written by `handleLoginChange` only and read by no handler,
and is left out). -/
structure State where
  loggedIn : Bool
  selectedId : Option Nat
  formValues : FormValues
  result : Option JSVal
  loading : Bool
  error : String
  page : Int
  exited : Bool

/-- The initial values passed to `useState`. -/
def State.initial : State :=
  { loggedIn := false, selectedId := none, formValues := [], result := none,
    loading := false, error := "", page := 1, exited := false }

/-- The handler `handleLoginSubmit`. -/
def handleLoginSubmit (s : State) : State :=
  { s with loggedIn := true, selectedId := none, exited := false }

/-- The handler `handleExit`. -/
def handleExit (s : State) : State :=
  { s with exited := true, selectedId := none, result := none, error := "",
           formValues := [], page := 1 }

/-- The handler `handleBubbleClick`. -/
def handleBubbleClick (s : State) (id : Nat) : State :=
  { s with exited := false, selectedId := some id, formValues := [],
           result := none, error := "", page := 1 }

/-- The handler `handleInputChange`. -/
def handleInputChange (s : State) (name value : String) : State :=
  { s with formValues := s.formValues.set name value }

/-- The fallback message of the `catch` block of `handleSubmit`. -/
def mensajeGenerico : String := "Ocurrió un error al ejecutar la consulta."

/-- The part of `handleSubmit` that runs before `await`: the new state, and the
arguments `(selectedConsulta.id, formValues)` of the call of `ejecutarConsulta`
when that call is made (`none`: the handler returned before it). -/
def handleSubmitStart (s : State) : State × Option (Nat × FormValues) :=
  match selectedConsulta s.selectedId with
  | none => (s, none)
  | some c =>
    match validar c.campos s.formValues with
    | some msg => ({ s with error := msg }, none)
    | none =>
      ({ s with error := "", loading := true, result := none, page := 1 },
       some (c.id, s.formValues))

/-- The part of `handleSubmit` that runs when the awaited call settles, on the
state `s` of that moment: `setResult(data)` or the `catch` block
(`err.message || "..."`), then the `finally` block. -/
def handleSubmitFinish (s : State) (out : Except JSError JSVal) : State :=
  match out with
  | .ok data => { s with result := some data, loading := false }
  | .error err =>
    { s with error := (if err.message = "" then mensajeGenerico else err.message),
             loading := false }

/-- One whole run of `handleSubmit` with no other event in between, given what
`fetch` produces for the request. -/
def handleSubmit (s : State) (net : FetchOutcome) : State :=
  match handleSubmitStart s with
  | (s1, none) => s1
  | (s1, some (id, params)) => handleSubmitFinish s1 (ejecutarConsulta id params net)

/-! ## Pagination -/

/-- The constant `pageSize`. -/
def pageSize : Nat := 10

/-- The value `result?.rows ?? []` when `rows` is an array (a stored result has
a truthy `rows`). For a `rows` that is not an array the render of `App` throws
at `rows.slice` or at `visibleRows.map`; such a result has no rows here. -/
def rowsOf (result : Option JSVal) : List JSVal :=
  match result with
  | none => []
  | some data =>
    match readProp data "rows" with
    | some (some (.arr items)) => items
    | _ => []

/-- The value `rows.length > 0 ? Math.ceil(rows.length / pageSize) : 1`, the
quotient taken exactly. -/
def totalPages {α : Type} (rows : List α) : Int :=
  if rows.length > 0 then ⌈((rows.length : ℚ) / (pageSize : ℚ))⌉ else 1

/-- The value `(page - 1) * pageSize`. -/
def startIndex (page : Int) : Int := (page - 1) * pageSize

/-- The method `Array.prototype.slice(start, end)` for integer arguments: a
negative index counts from the end, both are clamped to `[0, length]`. -/
def jsSlice {α : Type} (xs : List α) (start stop : Int) : List α :=
  let len : Int := xs.length
  let k := if start < 0 then max (len + start) 0 else min start len
  let final := if stop < 0 then max (len + stop) 0 else min stop len
  (xs.drop k.toNat).take (final - k).toNat

/-- The value `rows.slice(startIndex, startIndex + pageSize)`. -/
def visibleRows {α : Type} (rows : List α) (page : Int) : List α :=
  jsSlice rows (startIndex page) (startIndex page + pageSize)

/-- The updater `(p) => Math.max(1, p - 1)`. -/
def prevPage (p : Int) : Int := max 1 (p - 1)

/-- The updater `(p) => Math.min(totalPages, p + 1)`. -/
def nextPage (total p : Int) : Int := min total (p + 1)

/-- The handler `handlePrevPage`. -/
def handlePrevPage (s : State) : State :=
  { s with page := prevPage s.page }

/-- The handler `handleNextPage`, with `totalPages` of the current `result`. -/
def handleNextPage (s : State) : State :=
  { s with page := nextPage (totalPages (rowsOf s.result)) s.page }

/-! ## The console as a transition system

`handleSubmit` suspends at `await`, so other handlers may run between its two
halves. The system state is the component state together with the calls of
`ejecutarConsulta` that have not settled yet, each with the arguments captured
by the closure. Two bookkeeping items are added that the code does not store:
for each call, whether a selection or an exit happened since it was issued, and
for the stored result, the call that produced it with the outcome of its
`fetch`.
-/

/-- A call of `ejecutarConsulta` that has not settled: its arguments, and
whether `handleBubbleClick` or `handleExit` ran since it was issued. -/
structure Flight where
  id : Nat
  params : FormValues
  interrupted : Bool
  deriving DecidableEq, Repr

/-- The component state, the unsettled calls, and the call (with the outcome of
its `fetch`) whose `data` the last `setResult(data)` stored. -/
structure Sys where
  ui : State
  pending : List Flight
  origin : Option (Flight × FetchOutcome)

/-- The system at the first render. -/
def Sys.initial : Sys :=
  { ui := State.initial, pending := [], origin := none }

/-- What can happen to the console. `arrive i net`: the `i`-th unsettled call
settles with `net` as the outcome of its `fetch`. -/
inductive Event where
  | login
  | exit
  | select (id : Nat)
  | input (name value : String)
  | submit
  | arrive (i : Nat) (net : FetchOutcome)
  | prev
  | next

/-- Marks every unsettled call as interrupted. -/
def interruptAll (fs : List Flight) : List Flight :=
  fs.map (fun f => { f with interrupted := true })

/-- The effect of an event. `submit` is refused while `loading` (the submit
button has `disabled={loading}`); `arrive i` needs an `i`-th unsettled call. -/
def advance (σ : Sys) (e : Event) : Option Sys :=
  match e with
  | .login => some { σ with ui := handleLoginSubmit σ.ui }
  | .exit => some { σ with ui := handleExit σ.ui, pending := interruptAll σ.pending }
  | .select id =>
    some { σ with ui := handleBubbleClick σ.ui id, pending := interruptAll σ.pending }
  | .input name value => some { σ with ui := handleInputChange σ.ui name value }
  | .submit =>
    if σ.ui.loading then none
    else
      match handleSubmitStart σ.ui with
      | (ui1, none) => some { σ with ui := ui1 }
      | (ui1, some (id, params)) =>
        some { σ with ui := ui1
                      pending := σ.pending ++ [{ id := id, params := params, interrupted := false }] }
  | .arrive i net =>
    match σ.pending[i]? with
    | none => none
    | some f =>
      match ejecutarConsulta f.id f.params net with
      | .ok data =>
        some { ui := handleSubmitFinish σ.ui (.ok data)
               pending := σ.pending.eraseIdx i
               origin := some (f, net) }
      | .error err =>
        some { ui := handleSubmitFinish σ.ui (.error err)
               pending := σ.pending.eraseIdx i
               origin := σ.origin }
  | .prev => some { σ with ui := handlePrevPage σ.ui }
  | .next => some { σ with ui := handleNextPage σ.ui }

/-- Whether the current render offers the control that raises the event: the
login form is rendered only while `!loggedIn`; `SALIR` whenever logged in; the
bubbles (one per entry of `CONSULTAS`) and the panel only while `!exited`; the
form, with one input per field, only for a resolved selection; the pagination
buttons only under `result && rows.length > pageSize`, each disabled at its end.
The arrival of a response needs no control. -/
def offered (σ : Sys) (e : Event) : Bool :=
  let s := σ.ui
  match e with
  | .login => !s.loggedIn
  | .exit => s.loggedIn
  | .select id => s.loggedIn && !s.exited && CONSULTAS.any (fun c => c.id == id)
  | .input name _ =>
    s.loggedIn && !s.exited &&
      (match selectedConsulta s.selectedId with
       | some c => c.campos.any (fun campo => campo.name == name)
       | none => false)
  | .submit => s.loggedIn && !s.exited && (selectedConsulta s.selectedId).isSome
  | .arrive _ _ => true
  | .prev =>
    s.loggedIn && !s.exited && (selectedConsulta s.selectedId).isSome &&
      s.result.isSome && decide ((rowsOf s.result).length > pageSize) &&
      decide (s.page ≠ 1)
  | .next =>
    s.loggedIn && !s.exited && (selectedConsulta s.selectedId).isSome &&
      s.result.isSome && decide ((rowsOf s.result).length > pageSize) &&
      decide (s.page ≠ totalPages (rowsOf s.result))

/-- One step: with `gated`, only events whose control is offered. -/
def step (gated : Bool) (σ : Sys) (e : Event) : Option Sys :=
  if gated && !offered σ e then none else advance σ e

/-- A run of events from `σ`. -/
def run (gated : Bool) (σ : Sys) (es : List Event) : Option Sys :=
  match es with
  | [] => some σ
  | e :: rest =>
    match step gated σ e with
    | none => none
    | some σ1 => run gated σ1 rest

/-- The states that some run of events from the first render reaches. -/
def Reachable (gated : Bool) (σ : Sys) : Prop :=
  ∃ es : List Event, run gated Sys.initial es = some σ

/-! ## Vocabulary of the properties, and example inputs -/

/-- A field of the form is missing: its value is absent, or is a string that is
empty after trimming (the wording of the specification). -/
def Missing (fv : FormValues) (campo : Campo) : Prop :=
  fv.get campo.name = none ∨ ∃ v, fv.get campo.name = some v ∧ jsTrim v = ""

/-- The entry of `CONSULTAS` with id 2. -/
def consultaHistorial : Consulta :=
  { id := 2
    titulo := "Historial académico de un estudiante"
    descripcion := "Obtener el historial académico completo (transcript) de un estudiante. El ID del estudiante se especifica en la pregunta."
    campos := [ { name := "studentId", label := "ID del estudiante", placeholder := "Ejemplo: 12345" } ] }

/-- The three screens of the render: the login form while `!loggedIn`, the exit
message while `exited`, the console otherwise. -/
inductive SessionState where
  | LoggedOut
  | Active
  | Exited
  deriving DecidableEq, Repr

/-- The screen that `App` renders for a state. -/
def sessionState (s : State) : SessionState :=
  if !s.loggedIn then .LoggedOut else if s.exited then .Exited else .Active

/-- Whether the parsed body is an object whose own property `key` is truthy. -/
def fieldTruthy (data : JSVal) (key : String) : Bool :=
  match data with
  | .obj props => truthyProp (lookupProp props key)
  | _ => false

/-- A 200 response whose body is `{"columns": ["Prereq"], "rows": null}`. -/
def respuestaRowsNull : Response :=
  { status := 200, statusText := "OK"
    text := some "\x7b\"columns\": [\"Prereq\"], \"rows\": null\x7d"
    json := .ok (.obj [("columns", .arr [.str "Prereq"]), ("rows", .null)]) }

/-- A logged-in state with query 2 selected and a `studentId` of two spaces. -/
def estadoHistorialBlanco : State :=
  { loggedIn := true, selectedId := some 2, formValues := [("studentId", "  ")],
    result := none, loading := false, error := "", page := 1, exited := false }

/-- The entry of `CONSULTAS` with id 9. -/
def consultaSalario : Consulta :=
  { id := 9
    titulo := "Salario promedio por departamento"
    descripcion := "Calcular el salario promedio por departamento."
    campos := [] }

/-- A logged-in state with query 9 selected. -/
def estadoSalario : State :=
  { loggedIn := true, selectedId := some 9, formValues := [], result := none,
    loading := false, error := "", page := 1, exited := false }

/-- A response with status 500 whose body text cannot be read. -/
def respuesta500 : Response :=
  { status := 500, statusText := "Internal Server Error", text := none,
    json := .error "Unexpected end of JSON input" }

/-- The 25 rows `1, 2, ..., 25`. -/
def filas25 : List Nat := List.range' 1 25

/-- The invariant behind the page bound: the page is within the pages of the
stored result, at most one call is unsettled, and while one is, the component
is loading, stores no result and shows page 1. -/
structure PageInv (σ : Sys) : Prop where
  lo : 1 ≤ σ.ui.page
  hi : σ.ui.page ≤ totalPages (rowsOf σ.ui.result)
  one : σ.pending.length ≤ 1
  busy : σ.pending ≠ [] → σ.ui.loading = true ∧ σ.ui.result = none ∧ σ.ui.page = 1

/-- A response with status 200 and 25 rows of one column. -/
def cuerpo25 : JSVal :=
  .obj [("columns", .arr [.str "n"]),
        ("rows", .arr ((List.range 25).map (fun i => .arr [.num (.finite false (i + 1) 0)])))]

/-- A response with status 200 whose body parses to `cuerpo25`. -/
def respuesta25 : Response :=
  { status := 200, statusText := "OK", text := none, json := .ok cuerpo25 }

/-- Login, query 9, submit, the response with 25 rows arrives, then four clicks
on the next page. -/
def carreraPaginas : List Event :=
  [.login, .select 9, .submit, .arrive 0 (.responded respuesta25), .next, .next, .next, .next]

/-- The state at the end of `carreraPaginas`. -/
def estadoPaginas : Sys := (run false Sys.initial carreraPaginas).getD Sys.initial

/-- The invariant behind the origin of the result: before the login nothing is
stored or pending; a stored result is the `data` that the recorded call
returned, that call was for an entry of the catalog, and, unless a selection or
an exit ran while it was unsettled, for the entry now selected; every unsettled
call is of that kind too. -/
structure OriginInv (σ : Sys) : Prop where
  fresh : σ.ui.loggedIn = false → σ.ui.result = none ∧ σ.pending = []
  res : ∀ data, σ.ui.result = some data →
    ∃ f net, σ.origin = some (f, net) ∧
      ejecutarConsulta f.id f.params net = .ok data ∧
      (∃ c ∈ CONSULTAS, c.id = f.id) ∧
      (f.interrupted = false → σ.ui.selectedId = some f.id)
  pend : ∀ f ∈ σ.pending,
    (∃ c ∈ CONSULTAS, c.id = f.id) ∧ (f.interrupted = false → σ.ui.selectedId = some f.id)

/-- A response with status 200 and one row. -/
def respuestaSalario : Response :=
  { status := 200, statusText := "OK", text := none
    json := .ok (.obj [("columns", .arr [.str "dept_name", .str "avg_salary"]),
                       ("rows", .arr [.arr [.str "Physics", .num (.finite false 91000 0)]])]) }

/-- Login, query 9, submit, then query 1 is selected while the call is
unsettled, then the response for query 9 arrives. -/
def carreraCambio : List Event :=
  [.login, .select 9, .submit, .select 1, .arrive 0 (.responded respuestaSalario)]

/-- Login, query 9, submit, then `SALIR` while the call is unsettled, then the
response for query 9 arrives. -/
def carreraSalida : List Event :=
  [.login, .select 9, .submit, .exit, .arrive 0 (.responded respuestaSalario)]

/-- Login, query 9, submit, the response arrives. -/
def carreraSimple : List Event :=
  [.login, .select 9, .submit, .arrive 0 (.responded respuestaSalario)]

/-- The state at the end of `carreraSimple`. -/
def estadoSimple : Sys := (run true Sys.initial carreraSimple).getD Sys.initial

/-! ## Validation -/

theorem dropWhile_all_iff {α : Type} (p : α → Bool) (l : List α) :
    (∀ x ∈ l.dropWhile p, p x = true) ↔ ∀ x ∈ l, p x = true := by
  constructor
  · intro h
    induction l with
    | nil => simp
    | cons a t ih =>
      by_cases ha : p a = true
      · intro x hx
        rcases List.mem_cons.mp hx with rfl | hx
        · exact ha
        · exact ih (by simpa [List.dropWhile_cons, ha] using h) x hx
      · exfalso
        apply ha
        apply h
        simp [List.dropWhile_cons, ha]
  · intro h x hx
    exact h x ((List.dropWhile_suffix p).subset hx)

theorem jsTrim_eq_empty_iff (v : String) :
    jsTrim v = "" ↔ ∀ ch ∈ v.data, isJsWhitespace ch = true := by
  have h1 : jsTrim v = "" ↔
      ((v.data.dropWhile isJsWhitespace).reverse.dropWhile isJsWhitespace).reverse = [] := by
    unfold jsTrim
    constructor
    · intro h
      have := congrArg String.data h
      simpa using this
    · intro h
      rw [h]
  rw [h1, List.reverse_eq_nil_iff, List.dropWhile_eq_nil_iff]
  constructor
  · intro h
    exact (dropWhile_all_iff _ _).mp (fun x hx => h x (List.mem_reverse.mpr hx))
  · intro h x hx
    exact (dropWhile_all_iff _ _).mpr h x (List.mem_reverse.mp hx)

theorem jsTrim_empty : jsTrim "" = "" := by
  rw [jsTrim_eq_empty_iff]
  intro ch hch
  simp at hch

theorem faltaValor_iff (fv : FormValues) (campo : Campo) :
    faltaValor (fv.get campo.name) = true ↔ Missing fv campo := by
  unfold Missing faltaValor
  cases h : fv.get campo.name with
  | none => simp
  | some v =>
    simp only [Bool.or_eq_true, beq_iff_eq, Option.some.injEq, exists_eq_left', false_or,
      reduceCtorEq]
    constructor
    · rintro (h1 | h1)
      · rw [h1]; exact jsTrim_empty
      · exact h1
    · intro h1
      exact Or.inr h1

theorem validar_eq_none_iff (campos : List Campo) (fv : FormValues) :
    validar campos fv = none ↔ ∀ campo ∈ campos, ¬ Missing fv campo := by
  induction campos with
  | nil => simp [validar]
  | cons a t ih =>
    unfold validar
    by_cases h : faltaValor (fv.get a.name) = true
    · simp only [h, if_true, reduceCtorEq, false_iff]
      intro hall
      exact hall a (List.mem_cons_self _ _) ((faltaValor_iff fv a).mp h)
    · simp only [h, if_false, Bool.false_eq_true, ih, List.mem_cons, forall_eq_or_imp]
      constructor
      · intro hall
        exact ⟨fun hm => h ((faltaValor_iff fv a).mpr hm), hall⟩
      · intro hall
        exact hall.2

theorem validar_eq_some_iff (campos : List Campo) (fv : FormValues) (msg : String) :
    validar campos fv = some msg ↔
      ∃ before campo after, campos = before ++ campo :: after ∧
        (∀ x ∈ before, ¬ Missing fv x) ∧ Missing fv campo ∧
        msg = mensajeFalta campo.label := by
  induction campos with
  | nil => simp [validar]
  | cons a t ih =>
    unfold validar
    by_cases h : faltaValor (fv.get a.name) = true
    · simp only [h, if_true, Option.some.injEq]
      constructor
      · intro hm
        exact ⟨[], a, t, rfl, by simp, (faltaValor_iff fv a).mp h, hm.symm⟩
      · rintro ⟨before, campo, after, heq, hbefore, hmiss, hmsg⟩
        cases before with
        | nil =>
          simp only [List.nil_append, List.cons.injEq] at heq
          rw [hmsg, heq.1]
        | cons b bs =>
          simp only [List.cons_append, List.cons.injEq] at heq
          exact absurd ((faltaValor_iff fv a).mp h)
            (heq.1 ▸ hbefore b (List.mem_cons_self _ _))
    · simp only [h, if_false, Bool.false_eq_true, ih]
      have ha : ¬ Missing fv a := fun hm => h ((faltaValor_iff fv a).mpr hm)
      constructor
      · rintro ⟨before, campo, after, heq, hbefore, hmiss, hmsg⟩
        refine ⟨a :: before, campo, after, by simp [heq], ?_, hmiss, hmsg⟩
        intro x hx
        rcases List.mem_cons.mp hx with rfl | hx
        · exact ha
        · exact hbefore x hx
      · rintro ⟨before, campo, after, heq, hbefore, hmiss, hmsg⟩
        cases before with
        | nil =>
          simp only [List.nil_append, List.cons.injEq] at heq
          exact absurd (heq.1 ▸ hmiss) ha
        | cons b bs =>
          simp only [List.cons_append, List.cons.injEq] at heq
          exact ⟨bs, campo, after, heq.2, fun x hx => hbefore x (List.mem_cons_of_mem _ hx),
            hmiss, hmsg⟩

/-- C1: for every entry of the catalog and every form values, the validation
loop of `handleSubmit` fails exactly when some field of the entry is missing
(value absent, or empty after trimming, that is, made of white space only);
the error it reports is the message for the label of the first missing field
in declaration order; and the entry without fields (query 9) always passes. -/
theorem C1_validation (c : Consulta) (hc : c ∈ CONSULTAS) (fv : FormValues) :
    ((∃ msg, validar c.campos fv = some msg) ↔ ∃ campo ∈ c.campos, Missing fv campo) ∧
    (∀ msg, validar c.campos fv = some msg ↔
      ∃ before campo after, c.campos = before ++ campo :: after ∧
        (∀ x ∈ before, ¬ Missing fv x) ∧ Missing fv campo ∧
        msg = mensajeFalta campo.label) ∧
    (∀ campo, Missing fv campo ↔
      (fv.get campo.name = none ∨
        ∃ v, fv.get campo.name = some v ∧ ∀ ch ∈ v.data, isJsWhitespace ch = true)) ∧
    (c.campos = [] → validar c.campos fv = none) ∧
    (c.id = 9 → c.campos = []) := by
  refine ⟨?_, fun msg => validar_eq_some_iff _ _ _, ?_, ?_, ?_⟩
  · constructor
    · rintro ⟨msg, hmsg⟩
      by_contra hno
      have : validar c.campos fv = none :=
        (validar_eq_none_iff _ _).mpr (fun campo hmem hm => hno ⟨campo, hmem, hm⟩)
      rw [this] at hmsg
      exact absurd hmsg (by simp)
    · rintro ⟨campo, hmem, hm⟩
      cases hv : validar c.campos fv with
      | some msg => exact ⟨msg, rfl⟩
      | none => exact absurd hm ((validar_eq_none_iff _ _).mp hv campo hmem)
  · intro campo
    unfold Missing
    simp only [jsTrim_eq_empty_iff]
  · intro h
    rw [h]
    rfl
  · intro h9
    simp only [CONSULTAS, List.mem_cons, List.mem_singleton, List.not_mem_nil, or_false] at hc
    rcases hc with rfl | rfl | rfl | rfl | rfl | rfl | rfl | rfl | rfl | rfl <;>
      first
      | rfl
      | exact absurd h9 (by decide)

theorem consultaHistorial_mem : consultaHistorial ∈ CONSULTAS :=
  List.Mem.tail _ (List.Mem.head _)

/-- An instance of C1: entry 2 with a `studentId` of two spaces. -/
theorem C1_validation_witness :
    consultaHistorial ∈ CONSULTAS ∧
    ((∃ msg, validar consultaHistorial.campos [("studentId", "  ")] = some msg) ↔
      ∃ campo ∈ consultaHistorial.campos, Missing [("studentId", "  ")] campo) :=
  ⟨consultaHistorial_mem,
   (C1_validation consultaHistorial consultaHistorial_mem [("studentId", "  ")]).1⟩

/-! ## Session and selection -/

/-- C2: from every state, `handleBubbleClick(id)` gives `exited = false`,
`selectedId = id`, empty form values, no result, empty error and page 1; this
holds in particular after `handleExit`, and for a logged-in user the session is
then Active. -/
theorem C2_handleBubbleClick (s : State) (id : Nat) :
    (handleBubbleClick s id).exited = false ∧
    (handleBubbleClick s id).selectedId = some id ∧
    (handleBubbleClick s id).formValues = [] ∧
    (handleBubbleClick s id).result = none ∧
    (handleBubbleClick s id).error = "" ∧
    (handleBubbleClick s id).page = 1 ∧
    (handleExit s).exited = true ∧
    (handleBubbleClick (handleExit s) id).exited = false ∧
    (handleBubbleClick s id).loggedIn = s.loggedIn ∧
    sessionState (handleBubbleClick s id) =
      (if s.loggedIn then SessionState.Active else SessionState.LoggedOut) ∧
    sessionState (handleBubbleClick (handleExit s) id) =
      (if s.loggedIn then SessionState.Active else SessionState.LoggedOut) := by
  refine ⟨rfl, rfl, rfl, rfl, rfl, rfl, rfl, rfl, rfl, ?_, ?_⟩ <;>
    cases h : s.loggedIn <;> simp [sessionState, handleBubbleClick, handleExit, h]

/-! ## The dispatcher -/

/-- C3 fails as stated: a success-range response whose parsed body has both a
`columns` field and a `rows` field, the latter `null`, is not returned;
`ejecutarConsulta` throws the schema error. -/
theorem C3_counterexample :
    respuestaRowsNull.ok = true ∧
    respuestaRowsNull.json = .ok (.obj [("columns", .arr [.str "Prereq"]), ("rows", .null)]) ∧
    hasField (.obj [("columns", .arr [.str "Prereq"]), ("rows", .null)]) "columns" = true ∧
    hasField (.obj [("columns", .arr [.str "Prereq"]), ("rows", .null)]) "rows" = true ∧
    ejecutarConsulta 1 [("courseId", "CS-101")] (.responded respuestaRowsNull) =
      .error { message := mensajeEsquema } ∧
    ejecutarConsulta 1 [("courseId", "CS-101")] (.responded respuestaRowsNull) ≠
      .ok (.obj [("columns", .arr [.str "Prereq"]), ("rows", .null)]) := by
  have h : ejecutarConsulta 1 [("courseId", "CS-101")] (.responded respuestaRowsNull) =
      .error { message := mensajeEsquema } := by
    simp [ejecutarConsulta, respuestaRowsNull, Response.ok, readProp, lookupProp, truthyProp,
      JSVal.truthy]
  refine ⟨by decide, rfl, by decide, by decide, h, ?_⟩
  rw [h]
  intro hne
  cases hne

theorem ejecutarConsulta_http (id : Nat) (params : FormValues) (r : Response)
    (h : r.ok = false) :
    ejecutarConsulta id params (.responded r) =
      .error { message := mensajeHttp r.status r.statusText (r.text.getD "") } := by
  cases ht : r.text <;> simp [ejecutarConsulta, h, ht]

theorem ejecutarConsulta_unparsed (id : Nat) (params : FormValues) (r : Response) (m : String)
    (hok : r.ok = true) (hj : r.json = .error m) :
    ejecutarConsulta id params (.responded r) = .error { message := m } := by
  simp [ejecutarConsulta, hok, hj]

theorem ejecutarConsulta_parsed (id : Nat) (params : FormValues) (r : Response) (data : JSVal)
    (hok : r.ok = true) (hj : r.json = .ok data) :
    ejecutarConsulta id params (.responded r) =
      (match data with
       | .null => .error { message := mensajeNull }
       | _ =>
         if fieldTruthy data "columns" = true ∧ fieldTruthy data "rows" = true then .ok data
         else .error { message := mensajeEsquema }) := by
  cases data with
  | obj props =>
    cases hc : truthyProp (lookupProp props "columns") <;>
      cases hr : truthyProp (lookupProp props "rows") <;>
      simp [ejecutarConsulta, hok, hj, readProp, fieldTruthy, hc, hr]
  | null => simp [ejecutarConsulta, hok, hj, readProp]
  | bool b => simp [ejecutarConsulta, hok, hj, readProp, fieldTruthy, truthyProp]
  | num b => simp [ejecutarConsulta, hok, hj, readProp, fieldTruthy, truthyProp]
  | str b => simp [ejecutarConsulta, hok, hj, readProp, fieldTruthy, truthyProp]
  | arr b => simp [ejecutarConsulta, hok, hj, readProp, fieldTruthy, truthyProp]

theorem ejecutarConsulta_ok_iff (id : Nat) (params : FormValues) (r : Response) (data : JSVal) :
    ejecutarConsulta id params (.responded r) = .ok data ↔
      (r.ok = true ∧ r.json = .ok data ∧
        fieldTruthy data "columns" = true ∧ fieldTruthy data "rows" = true) := by
  cases hok : r.ok with
  | false => simp [ejecutarConsulta_http id params r hok]
  | true =>
    cases hj : r.json with
    | error m => simp [ejecutarConsulta_unparsed id params r m hok hj]
    | ok d =>
      rw [ejecutarConsulta_parsed id params r d hok hj]
      constructor
      · intro h
        cases d with
        | null => simp at h
        | obj props =>
          simp only at h
          split at h
          · rename_i hft
            cases h
            exact ⟨rfl, rfl, hft.1, hft.2⟩
          · cases h
        | bool b => simp [fieldTruthy] at h
        | num b => simp [fieldTruthy] at h
        | str b => simp [fieldTruthy] at h
        | arr b => simp [fieldTruthy] at h
      · rintro ⟨_, h2, h3, h4⟩
        have hd : d = data := by cases h2; rfl
        subst hd
        cases d with
        | null => simp [fieldTruthy] at h3
        | obj props => simp [h3, h4]
        | bool b => simp [fieldTruthy] at h3
        | num b => simp [fieldTruthy] at h3
        | str b => simp [fieldTruthy] at h3
        | arr b => simp [fieldTruthy] at h3

theorem ejecutarConsulta_schema (id : Nat) (params : FormValues) (r : Response) (data : JSVal)
    (hok : r.ok = true) (hj : r.json = .ok data) (hnull : data ≠ .null)
    (hf : fieldTruthy data "columns" = false ∨ fieldTruthy data "rows" = false) :
    ejecutarConsulta id params (.responded r) = .error { message := mensajeEsquema } := by
  rw [ejecutarConsulta_parsed id params r data hok hj]
  have hno : ¬ (fieldTruthy data "columns" = true ∧ fieldTruthy data "rows" = true) := by
    rintro ⟨h1, h2⟩
    rcases hf with h | h
    · rw [h1] at h; cases h
    · rw [h2] at h; cases h
  cases data with
  | null => exact absurd rfl hnull
  | obj props => simp only [hno, if_false]
  | bool b => simp only [hno, if_false]
  | num b => simp only [hno, if_false]
  | str b => simp only [hno, if_false]
  | arr b => simp only [hno, if_false]

/-- C3 (amended): for every response, `ejecutarConsulta` returns the parsed
body, unchanged, exactly when the response is in the success range, its body
parses, and the `columns` and `rows` properties of the parsed body are both
truthy (so present and not `null`, `false`, `0` or the empty string; an array
always is); outside the success range it throws the error whose message carries
the status code, the status text and the body text, the empty string when the
text cannot be read; a success-range response whose parsed body is not `null`
and has a `columns` or `rows` that is absent or falsy throws the schema error. -/
theorem C3_ejecutarConsulta (id : Nat) (params : FormValues) (r : Response) :
    (∀ data, ejecutarConsulta id params (.responded r) = .ok data ↔
      (r.ok = true ∧ r.json = .ok data ∧
        fieldTruthy data "columns" = true ∧ fieldTruthy data "rows" = true)) ∧
    (∀ data, fieldTruthy data "columns" = true ∧ fieldTruthy data "rows" = true →
      hasField data "columns" = true ∧ hasField data "rows" = true) ∧
    (∀ props cs rs, lookupProp props "columns" = some (.arr cs) →
      lookupProp props "rows" = some (.arr rs) →
      fieldTruthy (.obj props) "columns" = true ∧ fieldTruthy (.obj props) "rows" = true) ∧
    (r.ok = false →
      ejecutarConsulta id params (.responded r) =
        .error { message := mensajeHttp r.status r.statusText (r.text.getD "") }) ∧
    (r.ok = false → r.text = none →
      ejecutarConsulta id params (.responded r) =
        .error { message := mensajeHttp r.status r.statusText "" }) ∧
    (∀ data, r.ok = true → r.json = .ok data → data ≠ .null →
      (fieldTruthy data "columns" = false ∨ fieldTruthy data "rows" = false) →
      ejecutarConsulta id params (.responded r) = .error { message := mensajeEsquema }) := by
  refine ⟨fun data => ejecutarConsulta_ok_iff id params r data, ?_, ?_,
    ejecutarConsulta_http id params r, ?_,
    fun data hok hj hn hf => ejecutarConsulta_schema id params r data hok hj hn hf⟩
  · intro data h
    cases data <;> simp [fieldTruthy] at h
    rename_i props
    simp only [hasField]
    constructor
    · cases hc : lookupProp props "columns" with
      | none => simp [hc, truthyProp] at h
      | some v => rfl
    · cases hr : lookupProp props "rows" with
      | none => simp [hr, truthyProp] at h
      | some v => rfl
  · intro props cs rs hc hr
    simp [fieldTruthy, hc, hr, truthyProp, JSVal.truthy]
  · intro hok ht
    have := ejecutarConsulta_http id params r hok
    rw [ht] at this
    exact this

/-! ## Submission -/

theorem mensajeHttp_ne_empty (status : Nat) (statusText text : String) :
    mensajeHttp status statusText text ≠ "" := by
  intro h
  have h1 := congrArg String.length h
  simp only [mensajeHttp, String.length_append] at h1
  have h2 : "Error HTTP ".length = 11 := by decide
  have h3 : "".length = 0 := by decide
  omega

theorem handleSubmitFinish_error (mid : State) (err : JSError) :
    (handleSubmitFinish mid (.error err)).loading = false ∧
    (handleSubmitFinish mid (.error err)).result = mid.result ∧
    (handleSubmitFinish mid (.error err)).error ≠ "" ∧
    (err.message ≠ "" → (handleSubmitFinish mid (.error err)).error = err.message) := by
  refine ⟨rfl, rfl, ?_, ?_⟩
  · simp only [handleSubmitFinish]
    by_cases h : err.message = ""
    · simp only [h, if_true]
      decide
    · simp only [h, if_false]
      exact h
  · intro h
    simp [handleSubmitFinish, h]

theorem selectedConsulta_two (c : Consulta) (h : selectedConsulta (some 2) = some c) :
    c = consultaHistorial := by
  have h2 : selectedConsulta (some 2) = some consultaHistorial := by
    simp [selectedConsulta, CONSULTAS, consultaHistorial, List.find?]
  rw [h2] at h
  exact (Option.some.inj h).symm

/-- C4: when the selected entry has a missing field, `handleSubmit` returns
before the call of `ejecutarConsulta` (for every outcome the network could
give, and the list of unsettled calls is unchanged), sets the error to the
message with the label of the first missing field (for query 2, the label
"ID del estudiante"), and changes nothing else of the state. -/
theorem C4_submit_invalid (s : State) (c : Consulta)
    (hsel : selectedConsulta s.selectedId = some c)
    (hmiss : ∃ campo ∈ c.campos, Missing s.formValues campo) :
    ∃ before campo after,
      c.campos = before ++ campo :: after ∧
      (∀ x ∈ before, ¬ Missing s.formValues x) ∧ Missing s.formValues campo ∧
      handleSubmitStart s = ({ s with error := mensajeFalta campo.label }, none) ∧
      (∀ net, handleSubmit s net = { s with error := mensajeFalta campo.label }) ∧
      (∀ pending origin, s.loading = false →
        advance { ui := s, pending := pending, origin := origin } .submit =
          some { ui := { s with error := mensajeFalta campo.label },
                 pending := pending, origin := origin }) ∧
      (handleSubmitStart s).1.formValues = s.formValues ∧
      (handleSubmitStart s).1.result = s.result ∧
      (handleSubmitStart s).1.page = s.page ∧
      (handleSubmitStart s).1.loading = s.loading ∧
      (handleSubmitStart s).1.selectedId = s.selectedId ∧
      (s.selectedId = some 2 →
        (handleSubmitStart s).1.error = "Falta llenar el campo \"ID del estudiante\".") := by
  have hsome : ∃ msg, validar c.campos s.formValues = some msg := by
    cases hv : validar c.campos s.formValues with
    | some msg => exact ⟨msg, rfl⟩
    | none =>
      obtain ⟨campo, hmem, hm⟩ := hmiss
      exact absurd hm ((validar_eq_none_iff _ _).mp hv campo hmem)
  obtain ⟨msg, hmsg⟩ := hsome
  obtain ⟨before, campo, after, heq, hbefore, hm, hlabel⟩ :=
    (validar_eq_some_iff _ _ _).mp hmsg
  have hstart : handleSubmitStart s = ({ s with error := mensajeFalta campo.label }, none) := by
    simp only [handleSubmitStart, hsel, hmsg, hlabel]
  refine ⟨before, campo, after, heq, hbefore, hm, hstart, ?_, ?_, ?_, ?_, ?_, ?_, ?_, ?_⟩
  · intro net
    simp only [handleSubmit, hstart]
  · intro pending origin hl
    simp only [advance, hl, hstart, Bool.false_eq_true, if_false]
  · rw [hstart]
  · rw [hstart]
  · rw [hstart]
  · rw [hstart]
  · rw [hstart]
  · intro h2
    rw [h2] at hsel
    have hc := selectedConsulta_two c hsel
    subst hc
    rw [hstart]
    cases before with
    | nil =>
      simp only [consultaHistorial, List.nil_append, List.cons.injEq] at heq
      rw [← heq.1]
      rfl
    | cons b bs =>
      simp only [consultaHistorial, List.cons_append, List.cons.injEq] at heq
      have := heq.2
      simp at this

theorem estadoHistorialBlanco_missing :
    ∃ campo ∈ consultaHistorial.campos, Missing estadoHistorialBlanco.formValues campo :=
  ⟨{ name := "studentId", label := "ID del estudiante", placeholder := "Ejemplo: 12345" },
   List.Mem.head _,
   Or.inr ⟨"  ", rfl, (jsTrim_eq_empty_iff "  ").mpr (by decide)⟩⟩

/-- An instance of C4: query 2 submitted with a blank `studentId`. -/
theorem C4_submit_invalid_witness :
    selectedConsulta estadoHistorialBlanco.selectedId = some consultaHistorial ∧
    (∃ campo ∈ consultaHistorial.campos, Missing estadoHistorialBlanco.formValues campo) ∧
    (handleSubmitStart estadoHistorialBlanco).2 = none ∧
    (handleSubmitStart estadoHistorialBlanco).1.error =
      "Falta llenar el campo \"ID del estudiante\"." := by
  have hsel : selectedConsulta estadoHistorialBlanco.selectedId = some consultaHistorial := by
    simp [selectedConsulta, estadoHistorialBlanco, CONSULTAS, consultaHistorial, List.find?]
  obtain ⟨before, campo, after, -, -, -, hstart, -, -, -, -, -, -, -, h2⟩ :=
    C4_submit_invalid estadoHistorialBlanco consultaHistorial hsel estadoHistorialBlanco_missing
  exact ⟨hsel, estadoHistorialBlanco_missing, by rw [hstart], h2 rfl⟩

theorem mensajeHttp_contains (status : Nat) (statusText text : String) :
    ∃ a b, mensajeHttp status statusText text = a ++ toString status ++ b :=
  ⟨"Error HTTP ", " " ++ statusText ++ " " ++ text, by
    simp only [mensajeHttp, String.append_assoc]⟩

/-- C5: when a submission passes validation and its call of `ejecutarConsulta`
throws (any error: HTTP, schema, or another), the run of `handleSubmit` ends in
a state with `loading = false`, no result and a non-empty error; for a response
outside the success range the error is the HTTP message, which contains the
decimal status code (so "500" for status 500). The `catch` block handles every
thrown error: whatever the network gives, `handleSubmit` ends with
`loading = false`, also when other handlers ran in between. -/
theorem C5_submit_dispatch_fails (s : State) (c : Consulta) (net : FetchOutcome)
    (err : JSError)
    (hsel : selectedConsulta s.selectedId = some c)
    (hval : validar c.campos s.formValues = none)
    (hfail : ejecutarConsulta c.id s.formValues net = .error err) :
    (handleSubmitStart s).2 = some (c.id, s.formValues) ∧
    (handleSubmit s net).loading = false ∧
    (handleSubmit s net).result = none ∧
    (handleSubmit s net).error ≠ "" ∧
    (∀ r, net = .responded r → r.ok = false →
      (handleSubmit s net).error = mensajeHttp r.status r.statusText (r.text.getD "") ∧
      (∃ a b, (handleSubmit s net).error = a ++ toString r.status ++ b) ∧
      (r.status = 500 → ∃ a b, (handleSubmit s net).error = a ++ "500" ++ b)) ∧
    (∀ r data, net = .responded r → r.ok = true → r.json = .ok data → data ≠ .null →
      (handleSubmit s net).error = mensajeEsquema) ∧
    (∀ net1, (handleSubmit s net1).loading = false) ∧
    (∀ mid : State,
      (handleSubmitFinish mid (ejecutarConsulta c.id s.formValues net)).loading = false ∧
      (handleSubmitFinish mid (ejecutarConsulta c.id s.formValues net)).result = mid.result ∧
      (handleSubmitFinish mid (ejecutarConsulta c.id s.formValues net)).error ≠ "") := by
  have hstart : handleSubmitStart s =
      ({ s with error := "", loading := true, result := none, page := 1 },
       some (c.id, s.formValues)) := by
    simp only [handleSubmitStart, hsel, hval]
  have hrun : ∀ net1, handleSubmit s net1 =
      handleSubmitFinish { s with error := "", loading := true, result := none, page := 1 }
        (ejecutarConsulta c.id s.formValues net1) := by
    intro net1
    simp only [handleSubmit, hstart]
  have hfin := fun mid => handleSubmitFinish_error mid err
  refine ⟨by rw [hstart], ?_, ?_, ?_, ?_, ?_, ?_, ?_⟩
  · rw [hrun, hfail]; exact (hfin _).1
  · rw [hrun, hfail]; exact (hfin _).2.1
  · rw [hrun, hfail]; exact (hfin _).2.2.1
  · intro r hnet hok
    subst hnet
    have herr := ejecutarConsulta_http c.id s.formValues r hok
    rw [herr] at hfail
    have hmsg : err.message = mensajeHttp r.status r.statusText (r.text.getD "") := by
      cases hfail; rfl
    have hE : (handleSubmit s (.responded r)).error =
        mensajeHttp r.status r.statusText (r.text.getD "") := by
      rw [hrun, herr]
      exact (handleSubmitFinish_error _ _).2.2.2 (mensajeHttp_ne_empty _ _ _)
    refine ⟨hE, ?_, ?_⟩
    · rw [hE]; exact mensajeHttp_contains _ _ _
    · intro h500
      rw [hE, h500]
      exact mensajeHttp_contains 500 _ _
  · intro r data hnet hok hj hnn
    subst hnet
    have hnot : ¬ (fieldTruthy data "columns" = true ∧ fieldTruthy data "rows" = true) := by
      intro hft
      have := (ejecutarConsulta_ok_iff c.id s.formValues r data).mpr ⟨hok, hj, hft.1, hft.2⟩
      rw [this] at hfail
      cases hfail
    have hf : fieldTruthy data "columns" = false ∨ fieldTruthy data "rows" = false := by
      cases h1 : fieldTruthy data "columns"
      · exact Or.inl rfl
      · cases h2 : fieldTruthy data "rows"
        · exact Or.inr rfl
        · exact absurd ⟨h1, h2⟩ hnot
    have herr := ejecutarConsulta_schema c.id s.formValues r data hok hj hnn hf
    rw [hrun, herr]
    exact (handleSubmitFinish_error _ _).2.2.2 (by decide)
  · intro net1
    rw [hrun]
    cases ejecutarConsulta c.id s.formValues net1 <;> rfl
  · intro mid
    rw [hfail]
    exact ⟨(hfin mid).1, (hfin mid).2.1, (hfin mid).2.2.1⟩

theorem estadoSalario_selected :
    selectedConsulta estadoSalario.selectedId = some consultaSalario := by
  simp [selectedConsulta, estadoSalario, CONSULTAS, consultaSalario, List.find?]

/-- An instance of C5: query 9 submitted, the server answers 500. -/
theorem C5_submit_dispatch_fails_witness :
    selectedConsulta estadoSalario.selectedId = some consultaSalario ∧
    validar consultaSalario.campos estadoSalario.formValues = none ∧
    ejecutarConsulta consultaSalario.id estadoSalario.formValues (.responded respuesta500) =
      .error { message := "Error HTTP 500 Internal Server Error " } ∧
    (handleSubmit estadoSalario (.responded respuesta500)).loading = false ∧
    (handleSubmit estadoSalario (.responded respuesta500)).result = none ∧
    (handleSubmit estadoSalario (.responded respuesta500)).error ≠ "" :=
  have hfail : ejecutarConsulta consultaSalario.id estadoSalario.formValues
      (.responded respuesta500) =
      .error { message := "Error HTTP 500 Internal Server Error " } := by
    have hm : mensajeHttp respuesta500.status respuesta500.statusText
        (respuesta500.text.getD "") = "Error HTTP 500 Internal Server Error " := by decide
    rw [ejecutarConsulta_http _ _ _ (by decide), hm]
  have h := C5_submit_dispatch_fails estadoSalario consultaSalario (.responded respuesta500)
    { message := "Error HTTP 500 Internal Server Error " } estadoSalario_selected rfl hfail
  ⟨estadoSalario_selected, rfl, hfail, h.2.1, h.2.2.1, h.2.2.2.1⟩

/-! ## Pagination -/

theorem totalPages_eq {α : Type} (rows : List α) :
    totalPages rows = if rows.length = 0 then 1 else (((rows.length + 9) / 10 : Nat) : Int) := by
  unfold totalPages pageSize
  by_cases h : rows.length = 0
  · simp [h]
  · have hpos : rows.length > 0 := Nat.pos_of_ne_zero h
    simp only [hpos, if_true, h, if_false]
    obtain ⟨k, hk⟩ : ∃ k : Nat, k = (rows.length + 9) / 10 := ⟨_, rfl⟩
    rw [← hk, Int.ceil_eq_iff]
    have h1 : 10 * k ≤ rows.length + 9 := by omega
    have h3 : rows.length ≤ 10 * k := by omega
    have h1q : (10 : ℚ) * (k : ℚ) ≤ (rows.length : ℚ) + 9 := by exact_mod_cast h1
    have h3q : (rows.length : ℚ) ≤ 10 * (k : ℚ) := by exact_mod_cast h3
    push_cast
    constructor
    · rw [lt_div_iff₀ (by norm_num)]
      linarith
    · rw [div_le_iff₀ (by norm_num)]
      linarith

theorem totalPages_pos {α : Type} (rows : List α) : 1 ≤ totalPages rows := by
  rw [totalPages_eq]
  split
  · exact le_refl _
  · rename_i h
    have : 1 ≤ (rows.length + 9) / 10 := by omega
    exact_mod_cast this

theorem totalPages_eq_max_ceil {α : Type} (rows : List α) :
    totalPages rows = max 1 ⌈((rows.length : ℚ) / 10)⌉ := by
  by_cases h : rows.length = 0
  · simp [totalPages, h]
  · have hpos : rows.length > 0 := Nat.pos_of_ne_zero h
    have h1 := totalPages_pos rows
    have h2 : totalPages rows = ⌈((rows.length : ℚ) / 10)⌉ := by
      simp [totalPages, hpos, pageSize]
    rw [← h2]
    exact (max_eq_right h1).symm

/-- C6: for rows of length `n`, `totalPages` is `max(1, ceil(n / 10))`: 1 when
`n = 0`, otherwise the least `k` with `10 * k >= n`; 25 rows give 3 and exactly
10 rows give 1. -/
theorem C6_totalPages {α : Type} (rows : List α) :
    totalPages rows = max 1 ⌈((rows.length : ℚ) / 10)⌉ ∧
    (rows.length = 0 → totalPages rows = 1) ∧
    (0 < rows.length →
      (rows.length : Int) ≤ 10 * totalPages rows ∧
      ∀ k : Int, (rows.length : Int) ≤ 10 * k → totalPages rows ≤ k) ∧
    (rows.length = 25 → totalPages rows = 3) ∧
    (rows.length = 10 → totalPages rows = 1) := by
  refine ⟨totalPages_eq_max_ceil rows, ?_, ?_, ?_, ?_⟩
  · intro h
    simp [totalPages_eq, h]
  · intro hpos
    rw [totalPages_eq]
    have h : rows.length ≠ 0 := Nat.pos_iff_ne_zero.mp hpos
    simp only [h, if_false]
    constructor
    · have : rows.length ≤ 10 * ((rows.length + 9) / 10) := by omega
      exact_mod_cast this
    · intro k hk
      have hk0 : 0 ≤ k := by omega
      obtain ⟨m, rfl⟩ := Int.eq_ofNat_of_zero_le hk0
      have hm : rows.length ≤ 10 * m := by exact_mod_cast hk
      have : (rows.length + 9) / 10 ≤ m := by omega
      exact_mod_cast this
  · intro h
    simp [totalPages_eq, h]
  · intro h
    simp [totalPages_eq, h]

theorem visibleRows_eq {α : Type} (rows : List α) (p : Int) (h1 : 1 ≤ p) :
    visibleRows rows p = (rows.drop ((p.toNat - 1) * 10)).take 10 := by
  obtain ⟨q, rfl⟩ := Int.eq_ofNat_of_zero_le (by omega : 0 ≤ p)
  have hq : 1 ≤ q := by exact_mod_cast h1
  simp only [visibleRows, jsSlice, startIndex, pageSize, Int.toNat_ofNat]
  have hs : ((q : Int) - 1) * ((10 : Nat) : Int) = (((q - 1) * 10 : Nat) : Int) := by
    push_cast [Nat.cast_sub hq]
    ring
  rw [hs]
  have hneg : ¬ ((((q - 1) * 10 : Nat) : Int) < 0) := by omega
  have hneg2 : ¬ ((((q - 1) * 10 : Nat) : Int) + ((10 : Nat) : Int) < 0) := by omega
  simp only [hneg, hneg2, if_false]
  by_cases hle : (q - 1) * 10 ≤ rows.length
  · have hk : min (((q - 1) * 10 : Nat) : Int) (rows.length : Int) = (((q - 1) * 10 : Nat) : Int) := by
      apply min_eq_left
      exact_mod_cast hle
    rw [hk, Int.toNat_ofNat, List.take_eq_take, List.length_drop]
    omega
  · have hk : min (((q - 1) * 10 : Nat) : Int) (rows.length : Int) = (rows.length : Int) := by
      apply min_eq_right
      have : rows.length ≤ (q - 1) * 10 := by omega
      exact_mod_cast this
    rw [hk, Int.toNat_ofNat, List.drop_eq_nil_of_le (le_refl _),
      List.drop_eq_nil_of_le (by omega)]
    simp

theorem page_start_lt {α : Type} (rows : List α) (p : Int) (h1 : 1 ≤ p)
    (h2 : p ≤ totalPages rows) (hne : rows ≠ []) : (p.toNat - 1) * 10 < rows.length := by
  obtain ⟨q, rfl⟩ := Int.eq_ofNat_of_zero_le (by omega : 0 ≤ p)
  have hq : 1 ≤ q := by exact_mod_cast h1
  have hlen : rows.length ≠ 0 := fun h => hne (List.length_eq_zero.mp h)
  rw [totalPages_eq] at h2
  simp only [hlen, if_false] at h2
  have h3 : q ≤ (rows.length + 9) / 10 := by exact_mod_cast h2
  simp only [Int.toNat_ofNat]
  omega

/-- C7: for rows of length `n` and a page `p` with `1 <= p <= totalPages`,
`visibleRows` is the rows at the 0-based indices from `(p-1)*10` up to but
excluding `min(p*10, n)`, in their order; it has at most 10 rows, is non-empty
when `rows` is, and for 25 rows page 2 is rows 11 to 20 (1-based). -/
theorem C7_visibleRows {α : Type} (rows : List α) (p : Int) (h1 : 1 ≤ p)
    (h2 : p ≤ totalPages rows) :
    (((p.toNat - 1) * 10 : Nat) : Int) = (p - 1) * 10 ∧
    ((p.toNat * 10 : Nat) : Int) = p * 10 ∧
    visibleRows rows p =
      (rows.take (min (p.toNat * 10) rows.length)).drop ((p.toNat - 1) * 10) ∧
    (visibleRows rows p).length = min (p.toNat * 10) rows.length - (p.toNat - 1) * 10 ∧
    (∀ i, i < min (p.toNat * 10) rows.length - (p.toNat - 1) * 10 →
      (visibleRows rows p)[i]? = rows[(p.toNat - 1) * 10 + i]? ∧
      (rows[(p.toNat - 1) * 10 + i]?).isSome = true) ∧
    (visibleRows rows p).length ≤ 10 ∧
    (rows ≠ [] → visibleRows rows p ≠ []) ∧
    (rows.length = 25 → p = 2 →
      (visibleRows rows p).length = 10 ∧
      ∀ i, i < 10 → (visibleRows rows p)[i]? = rows[10 + i]?) := by
  have hv := visibleRows_eq rows p h1
  obtain ⟨q, rfl⟩ := Int.eq_ofNat_of_zero_le (by omega : 0 ≤ p)
  have hq : 1 ≤ q := by exact_mod_cast h1
  simp only [Int.toNat_ofNat] at hv ⊢
  have hlenv : (visibleRows rows (q : Int)).length = min (q * 10) rows.length - (q - 1) * 10 := by
    rw [hv, List.length_take, List.length_drop]
    omega
  have hget : ∀ i, i < min (q * 10) rows.length - (q - 1) * 10 →
      (visibleRows rows (q : Int))[i]? = rows[(q - 1) * 10 + i]? := by
    intro i hi
    rw [hv, List.getElem?_take, List.getElem?_drop]
    have : i < 10 := by omega
    simp [this]
  refine ⟨?_, ?_, ?_, hlenv, ?_, ?_, ?_, ?_⟩
  · push_cast [Nat.cast_sub hq]
    ring
  · push_cast
    ring
  · rw [hv]
    apply List.ext_getElem?
    intro i
    rw [List.getElem?_take, List.getElem?_drop, List.getElem?_drop, List.getElem?_take]
    by_cases hi : i < 10
    · by_cases hb : (q - 1) * 10 + i < min (q * 10) rows.length
      · simp [hi, hb]
      · have hge : rows.length ≤ (q - 1) * 10 + i := by omega
        simp [hi, hb, List.getElem?_eq_none hge]
    · have hb : ¬ ((q - 1) * 10 + i < min (q * 10) rows.length) := by omega
      simp [hi, hb]
  · intro i hi
    refine ⟨hget i hi, ?_⟩
    have hlt : (q - 1) * 10 + i < rows.length := by omega
    simp [List.getElem?_eq_getElem hlt]
  · rw [hlenv]
    omega
  · intro hne
    have hlt := page_start_lt rows (q : Int) h1 h2 hne
    simp only [Int.toNat_ofNat] at hlt
    intro hnil
    have hz : (visibleRows rows (q : Int)).length = 0 := by rw [hnil]; rfl
    rw [hlenv] at hz
    omega
  · intro h25 hp
    have hq2 : q = 2 := by exact_mod_cast hp
    subst hq2
    constructor
    · rw [hlenv, h25]
      rfl
    · intro i hi
      have := hget i (by rw [h25]; simpa using hi)
      simpa using this

/-- An instance of C7: page 2 of the rows `1..25` is `11..20`. -/
theorem C7_visibleRows_witness :
    (1 : Int) ≤ 2 ∧ (2 : Int) ≤ totalPages filas25 ∧
    visibleRows filas25 2 = [11, 12, 13, 14, 15, 16, 17, 18, 19, 20] :=
  have h2 : (2 : Int) ≤ totalPages filas25 := by
    rw [totalPages_eq]
    decide
  ⟨by decide, h2, (C7_visibleRows filas25 2 (by decide) h2).2.2.1.trans (by decide)⟩

/-- C8: `handlePrevPage` maps page `p` to `max(1, p - 1)` and `handleNextPage`
maps it to `min(totalPages, p + 1)`; from a page in `[1, totalPages]` both stay
in `[1, totalPages]`, the previous page of 1 is 1 and the next page of
`totalPages` is `totalPages` (3 for a result of 25 rows). -/
theorem C8_prev_next {α : Type} (rows : List α) (p : Int) (h1 : 1 ≤ p)
    (h2 : p ≤ totalPages rows) :
    (∀ s : State, (handlePrevPage s).page = max 1 (s.page - 1)) ∧
    (∀ s : State,
      (handleNextPage s).page = min (totalPages (rowsOf s.result)) (s.page + 1)) ∧
    prevPage p = max 1 (p - 1) ∧
    nextPage (totalPages rows) p = min (totalPages rows) (p + 1) ∧
    1 ≤ prevPage p ∧ prevPage p ≤ totalPages rows ∧
    1 ≤ nextPage (totalPages rows) p ∧ nextPage (totalPages rows) p ≤ totalPages rows ∧
    prevPage 1 = 1 ∧
    nextPage (totalPages rows) (totalPages rows) = totalPages rows ∧
    (rows.length = 25 → nextPage (totalPages rows) 3 = 3) := by
  have hT := totalPages_pos rows
  refine ⟨fun _ => rfl, fun _ => rfl, rfl, rfl, ?_, ?_, ?_, ?_, ?_, ?_, ?_⟩
  · exact le_max_left _ _
  · unfold prevPage
    exact max_le hT (by omega)
  · unfold nextPage
    exact le_min hT (by omega)
  · exact min_le_left _ _
  · decide
  · unfold nextPage
    exact min_eq_left (by omega)
  · intro h25
    have : totalPages rows = 3 := by simp [totalPages_eq, h25]
    rw [this]
    decide

/-- An instance of C8: page 3 of 25 rows. -/
theorem C8_prev_next_witness :
    (1 : Int) ≤ 3 ∧ (3 : Int) ≤ totalPages filas25 ∧
    prevPage 3 = 2 ∧ nextPage (totalPages filas25) 3 = 3 :=
  have h2 : (3 : Int) ≤ totalPages filas25 := by
    rw [totalPages_eq]
    decide
  have h := C8_prev_next filas25 3 (by decide) h2
  ⟨by decide, h2, h.2.2.1.trans (by decide), h.2.2.2.2.2.2.2.2.2.2 rfl⟩

/-! ## Invariants of the console -/

theorem handleSubmitStart_cases (s : State) :
    handleSubmitStart s = (s, none) ∨
    (∃ msg, handleSubmitStart s = ({ s with error := msg }, none)) ∨
    (∃ c, selectedConsulta s.selectedId = some c ∧
      handleSubmitStart s =
        ({ s with error := "", loading := true, result := none, page := 1 },
         some (c.id, s.formValues))) := by
  cases hsel : selectedConsulta s.selectedId with
  | none => exact Or.inl (by simp only [handleSubmitStart, hsel])
  | some c =>
    cases hval : validar c.campos s.formValues with
    | some msg => exact Or.inr (Or.inl ⟨msg, by simp only [handleSubmitStart, hsel, hval]⟩)
    | none => exact Or.inr (Or.inr ⟨c, rfl, by simp only [handleSubmitStart, hsel, hval]⟩)

theorem run_invariant (gated : Bool) (P : Sys → Prop)
    (hstep : ∀ σ e σ1, P σ → step gated σ e = some σ1 → P σ1)
    (es : List Event) : ∀ σ σ1, P σ → run gated σ es = some σ1 → P σ1 := by
  induction es with
  | nil =>
    intro σ σ1 h hrun
    simp only [run, Option.some.injEq] at hrun
    exact hrun ▸ h
  | cons e rest ih =>
    intro σ σ1 h hrun
    simp only [run] at hrun
    cases hs : step gated σ e with
    | none => rw [hs] at hrun; cases hrun
    | some σ2 =>
      rw [hs] at hrun
      exact ih σ2 σ1 (hstep σ e σ2 h hs) hrun

theorem rowsOf_none : rowsOf none = [] := rfl

theorem totalPages_nil : totalPages ([] : List JSVal) = 1 := by
  simp [totalPages]

theorem pageInv_initial : PageInv Sys.initial :=
  ⟨le_refl _, by decide, by decide, fun h => absurd rfl h⟩

theorem pageInv_advance (σ : Sys) (e : Event) (σ1 : Sys) (h : PageInv σ)
    (hs : advance σ e = some σ1) : PageInv σ1 := by
  cases e with
  | login =>
    simp only [advance, Option.some.injEq] at hs
    subst hs
    exact ⟨h.lo, h.hi, h.one, h.busy⟩
  | exit =>
    simp only [advance, Option.some.injEq] at hs
    subst hs
    refine ⟨le_refl _, totalPages_pos _, by simpa [interruptAll] using h.one, ?_⟩
    intro hne
    have hp : σ.pending ≠ [] := by simpa [interruptAll] using hne
    exact ⟨(h.busy hp).1, rfl, rfl⟩
  | select id =>
    simp only [advance, Option.some.injEq] at hs
    subst hs
    refine ⟨le_refl _, totalPages_pos _, by simpa [interruptAll] using h.one, ?_⟩
    intro hne
    have hp : σ.pending ≠ [] := by simpa [interruptAll] using hne
    exact ⟨(h.busy hp).1, rfl, rfl⟩
  | input name value =>
    simp only [advance, Option.some.injEq] at hs
    subst hs
    exact ⟨h.lo, h.hi, h.one, h.busy⟩
  | submit =>
    simp only [advance] at hs
    cases hl : σ.ui.loading with
    | true => simp [hl] at hs
    | false =>
      have hnil : σ.pending = [] := by
        by_contra hne
        have := (h.busy hne).1
        rw [hl] at this
        cases this
      simp only [hl, Bool.false_eq_true, if_false] at hs
      rcases handleSubmitStart_cases σ.ui with h0 | ⟨msg, h0⟩ | ⟨c, -, h0⟩
      · rw [h0] at hs
        simp only [Option.some.injEq] at hs
        subst hs
        exact ⟨h.lo, h.hi, h.one, h.busy⟩
      · rw [h0] at hs
        simp only [Option.some.injEq] at hs
        subst hs
        exact ⟨h.lo, h.hi, h.one, h.busy⟩
      · rw [h0] at hs
        simp only [Option.some.injEq] at hs
        subst hs
        refine ⟨le_refl _, totalPages_pos _, by simp [hnil], fun _ => ⟨rfl, rfl, rfl⟩⟩
  | arrive i net =>
    simp only [advance] at hs
    cases hg : σ.pending[i]? with
    | none => simp [hg] at hs
    | some f =>
      have hne : σ.pending ≠ [] := by
        intro hnil
        rw [hnil] at hg
        simp at hg
      obtain ⟨hload, hres, hpage⟩ := h.busy hne
      have herase : σ.pending.eraseIdx i = [] := by
        have hone := h.one
        cases hp : σ.pending with
        | nil => exact absurd hp hne
        | cons a t =>
          rw [hp] at hone hg
          cases t with
          | nil =>
            cases i with
            | zero => rfl
            | succ j => simp at hg
          | cons b u => simp at hone
      simp only [hg] at hs
      cases hout : ejecutarConsulta f.id f.params net with
      | ok data =>
        simp only [hout, Option.some.injEq] at hs
        subst hs
        refine ⟨?_, ?_, by simp [herase], fun hp => absurd herase hp⟩
        · show 1 ≤ σ.ui.page
          rw [hpage]
        · show σ.ui.page ≤ totalPages (rowsOf (some data))
          rw [hpage]
          exact totalPages_pos _
      | error err =>
        simp only [hout, Option.some.injEq] at hs
        subst hs
        refine ⟨h.lo, h.hi, by simp [herase], fun hp => absurd herase hp⟩
  | prev =>
    simp only [advance, Option.some.injEq] at hs
    subst hs
    refine ⟨le_max_left _ _, ?_, h.one, ?_⟩
    · show max 1 (σ.ui.page - 1) ≤ totalPages (rowsOf σ.ui.result)
      exact max_le (totalPages_pos _) (by have := h.hi; omega)
    · intro hne
      obtain ⟨hload, hres, hpage⟩ := h.busy hne
      refine ⟨hload, hres, ?_⟩
      show max 1 (σ.ui.page - 1) = 1
      rw [hpage]
      decide
  | next =>
    simp only [advance, Option.some.injEq] at hs
    subst hs
    refine ⟨?_, min_le_left _ _, h.one, ?_⟩
    · show 1 ≤ min (totalPages (rowsOf σ.ui.result)) (σ.ui.page + 1)
      exact le_min (totalPages_pos _) (by have := h.lo; omega)
    · intro hne
      obtain ⟨hload, hres, hpage⟩ := h.busy hne
      refine ⟨hload, hres, ?_⟩
      show min (totalPages (rowsOf σ.ui.result)) (σ.ui.page + 1) = 1
      rw [hres, hpage, rowsOf_none, totalPages_nil]
      decide

theorem step_advance (gated : Bool) (σ : Sys) (e : Event) (σ1 : Sys)
    (hs : step gated σ e = some σ1) : advance σ e = some σ1 := by
  unfold step at hs
  split at hs
  · cases hs
  · exact hs

/-- C10: in every state that a run of login, exit, select, input, submit
(refused while `loading`), arrival of a pending response (any body, any number
of rows), previous page and next page reaches from the first render, in any
order and whether or not the control is on screen, the page is at least 1 and at
most `max(1, ceil(rows.length / 10))` for the rows of the stored result (no
rows when there is none). -/
theorem C10_page_in_range (σ : Sys) (hreach : Reachable false σ) :
    1 ≤ σ.ui.page ∧
    σ.ui.page ≤ max 1 ⌈(((rowsOf σ.ui.result).length : ℚ) / 10)⌉ ∧
    σ.ui.page ≤ totalPages (rowsOf σ.ui.result) := by
  obtain ⟨es, hrun⟩ := hreach
  have hinv : PageInv σ :=
    run_invariant false PageInv
      (fun a e b ha hs => pageInv_advance a e b ha (step_advance false a e b hs))
      es Sys.initial σ pageInv_initial hrun
  refine ⟨hinv.lo, ?_, hinv.hi⟩
  rw [← totalPages_eq_max_ceil (rowsOf σ.ui.result)]
  exact hinv.hi

/-- An instance of C10: the state after `carreraPaginas`. -/
theorem C10_page_in_range_witness :
    Reachable false estadoPaginas ∧
    1 ≤ estadoPaginas.ui.page ∧
    estadoPaginas.ui.page ≤ totalPages (rowsOf estadoPaginas.ui.result) :=
  have hreach : Reachable false estadoPaginas := ⟨carreraPaginas, rfl⟩
  have h := C10_page_in_range estadoPaginas hreach
  ⟨hreach, h.1, h.2.2⟩

theorem selectedConsulta_some (sel : Option Nat) (c : Consulta)
    (h : selectedConsulta sel = some c) : c ∈ CONSULTAS ∧ sel = some c.id := by
  cases sel with
  | none => simp [selectedConsulta] at h
  | some i =>
    simp only [selectedConsulta] at h
    refine ⟨List.mem_of_find?_eq_some h, ?_⟩
    have := List.find?_some h
    simp only [beq_iff_eq] at this
    rw [this]

theorem originInv_initial : OriginInv Sys.initial :=
  ⟨fun _ => ⟨rfl, rfl⟩, fun data h => (by cases h), fun f hf => (by cases hf)⟩

theorem mem_interruptAll (fs : List Flight) (f : Flight) (h : f ∈ interruptAll fs) :
    f.interrupted = true ∧ ∃ g ∈ fs, g.id = f.id := by
  simp only [interruptAll, List.mem_map] at h
  obtain ⟨g, hg, rfl⟩ := h
  exact ⟨rfl, g, hg, rfl⟩

theorem originInv_step (σ : Sys) (e : Event) (σ1 : Sys) (h : OriginInv σ)
    (hs : step true σ e = some σ1) : OriginInv σ1 := by
  have hadv := step_advance true σ e σ1 hs
  have hoff : offered σ e = true := by
    unfold step at hs
    by_contra hno
    simp [hno] at hs
  clear hs
  cases e with
  | login =>
    simp only [offered, Bool.not_eq_true'] at hoff
    obtain ⟨hres, hpend⟩ := h.fresh hoff
    simp only [advance, Option.some.injEq] at hadv
    subst hadv
    refine ⟨fun hl => (by cases hl), ?_, ?_⟩
    · intro data hd
      have hd1 : σ.ui.result = some data := hd
      rw [hres] at hd1
      cases hd1
    · intro f hf
      have hf1 : f ∈ σ.pending := hf
      rw [hpend] at hf1
      cases hf1
  | exit =>
    simp only [offered] at hoff
    simp only [advance, Option.some.injEq] at hadv
    subst hadv
    refine ⟨fun hl => ?_, fun data hd => (by cases hd), ?_⟩
    · have hl1 : σ.ui.loggedIn = false := hl
      rw [hoff] at hl1
      cases hl1
    · intro f hf
      obtain ⟨hint, g, hg, hid⟩ := mem_interruptAll σ.pending f hf
      refine ⟨?_, fun hfalse => ?_⟩
      · rw [← hid]
        exact (h.pend g hg).1
      · rw [hint] at hfalse
        cases hfalse
  | select id =>
    simp only [offered, Bool.and_eq_true] at hoff
    simp only [advance, Option.some.injEq] at hadv
    subst hadv
    refine ⟨fun hl => ?_, fun data hd => (by cases hd), ?_⟩
    · have hl1 : σ.ui.loggedIn = false := hl
      rw [hoff.1.1] at hl1
      cases hl1
    · intro f hf
      obtain ⟨hint, g, hg, hid⟩ := mem_interruptAll σ.pending f hf
      refine ⟨?_, fun hfalse => ?_⟩
      · rw [← hid]
        exact (h.pend g hg).1
      · rw [hint] at hfalse
        cases hfalse
  | input name value =>
    simp only [offered, Bool.and_eq_true] at hoff
    simp only [advance, Option.some.injEq] at hadv
    subst hadv
    refine ⟨fun hl => ?_, h.res, h.pend⟩
    have hl1 : σ.ui.loggedIn = false := hl
    rw [hoff.1.1] at hl1
    cases hl1
  | submit =>
    simp only [offered, Bool.and_eq_true] at hoff
    have hlog : σ.ui.loggedIn = true := hoff.1.1
    simp only [advance] at hadv
    cases hl : σ.ui.loading with
    | true => simp [hl] at hadv
    | false =>
      simp only [hl, Bool.false_eq_true, if_false] at hadv
      rcases handleSubmitStart_cases σ.ui with h0 | ⟨msg, h0⟩ | ⟨c, hc, h0⟩
      · rw [h0] at hadv
        simp only [Option.some.injEq] at hadv
        subst hadv
        exact ⟨h.fresh, h.res, h.pend⟩
      · rw [h0] at hadv
        simp only [Option.some.injEq] at hadv
        subst hadv
        refine ⟨fun hl1 => ?_, h.res, h.pend⟩
        have hl2 : σ.ui.loggedIn = false := hl1
        rw [hlog] at hl2
        cases hl2
      · rw [h0] at hadv
        simp only [Option.some.injEq] at hadv
        subst hadv
        obtain ⟨hmem, hselid⟩ := selectedConsulta_some _ _ hc
        refine ⟨fun hl1 => ?_, fun data hd => (by cases hd), ?_⟩
        · have hl2 : σ.ui.loggedIn = false := hl1
          rw [hlog] at hl2
          cases hl2
        · intro f hf
          rcases List.mem_append.mp hf with hf | hf
          · exact h.pend f hf
          · simp only [List.mem_singleton] at hf
            subst hf
            exact ⟨⟨c, hmem, rfl⟩, fun _ => hselid⟩
  | arrive i net =>
    simp only [advance] at hadv
    cases hg : σ.pending[i]? with
    | none => simp [hg] at hadv
    | some f =>
      have hfmem : f ∈ σ.pending := List.getElem?_mem hg
      have hlog : σ.ui.loggedIn = true := by
        cases hl : σ.ui.loggedIn with
        | true => rfl
        | false =>
          have := (h.fresh hl).2
          rw [this] at hfmem
          cases hfmem
      simp only [hg] at hadv
      cases hout : ejecutarConsulta f.id f.params net with
      | ok data =>
        simp only [hout, Option.some.injEq] at hadv
        subst hadv
        refine ⟨fun hl1 => ?_, ?_, ?_⟩
        · have hl2 : σ.ui.loggedIn = false := hl1
          rw [hlog] at hl2
          cases hl2
        · intro d hd
          have hd1 : some data = some d := hd
          cases hd1
          exact ⟨f, net, rfl, hout, (h.pend f hfmem).1, (h.pend f hfmem).2⟩
        · intro g hgm
          exact h.pend g (List.mem_of_mem_eraseIdx hgm)
      | error err =>
        simp only [hout, Option.some.injEq] at hadv
        subst hadv
        refine ⟨fun hl1 => ?_, h.res, ?_⟩
        · have hl2 : σ.ui.loggedIn = false := hl1
          rw [hlog] at hl2
          cases hl2
        · intro g hgm
          exact h.pend g (List.mem_of_mem_eraseIdx hgm)
  | prev =>
    simp only [advance, Option.some.injEq] at hadv
    subst hadv
    exact ⟨h.fresh, h.res, h.pend⟩
  | next =>
    simp only [advance, Option.some.injEq] at hadv
    subst hadv
    exact ⟨h.fresh, h.res, h.pend⟩

/-- C9 fails as stated: with only controls that the render offers, the response
of the call for query 9 is stored as result while query 1 is the selected one,
and, on another run, while no query is selected. -/
theorem C9_counterexample :
    (∃ σ f net, run true Sys.initial carreraCambio = some σ ∧
      σ.ui.result.isSome = true ∧ σ.origin = some (f, net) ∧ f.id = 9 ∧
      σ.ui.selectedId = some 1) ∧
    (∃ σ, run true Sys.initial carreraSalida = some σ ∧
      σ.ui.result.isSome = true ∧ σ.ui.selectedId = none) :=
  ⟨⟨(run true Sys.initial carreraCambio).getD Sys.initial,
     { id := 9, params := [], interrupted := true }, .responded respuestaSalario,
     rfl, rfl, rfl, rfl, rfl⟩,
   ⟨(run true Sys.initial carreraSalida).getD Sys.initial, rfl, rfl, rfl⟩⟩

/-- C9 (amended): in every state that the console reaches from the first
render through the controls it offers and the arrival of responses, a stored
result is the body returned by a successful call of `ejecutarConsulta` issued
for an entry of the catalog, the one selected when it was submitted; it is the
entry selected now whenever no selection and no exit happened between that
submit and the arrival of its response. -/
theorem C9_result_origin (σ : Sys) (hreach : Reachable true σ) (data : JSVal)
    (hres : σ.ui.result = some data) :
    ∃ f net, σ.origin = some (f, net) ∧
      ejecutarConsulta f.id f.params net = .ok data ∧
      (∃ c ∈ CONSULTAS, c.id = f.id) ∧
      (f.interrupted = false → σ.ui.selectedId = some f.id) := by
  obtain ⟨es, hrun⟩ := hreach
  have hinv : OriginInv σ :=
    run_invariant true OriginInv originInv_step es Sys.initial σ originInv_initial hrun
  exact hinv.res data hres

/-- An instance of C9 (amended): the state after `carreraSimple`, where the
stored result is for the selected query 9. -/
theorem C9_result_origin_witness :
    Reachable true estadoSimple ∧
    estadoSimple.ui.result =
      some (.obj [("columns", .arr [.str "dept_name", .str "avg_salary"]),
                  ("rows", .arr [.arr [.str "Physics", .num (.finite false 91000 0)]])]) ∧
    estadoSimple.ui.selectedId = some 9 ∧
    ∃ f net, estadoSimple.origin = some (f, net) ∧
      ejecutarConsulta f.id f.params net =
        .ok (.obj [("columns", .arr [.str "dept_name", .str "avg_salary"]),
                   ("rows", .arr [.arr [.str "Physics", .num (.finite false 91000 0)]])]) ∧
      (∃ c ∈ CONSULTAS, c.id = f.id) ∧
      (f.interrupted = false → estadoSimple.ui.selectedId = some f.id) :=
  have hreach : Reachable true estadoSimple := ⟨carreraSimple, rfl⟩
  ⟨hreach, rfl, rfl, C9_result_origin estadoSimple hreach _ rfl⟩


end Portal
